import Mathlib

/-!
Shallow embedding of the off-chain claim protocol core of `xrpl-stream`:
the channel ledger store (`src/core/channelStore.js`), the claim validator
and finalization policy (`src/core/contract.js`, validator half), and the
sender-side streaming signer (`src/core/signer.js`).

Conventions of the embedding:
* amount strings handled through `BigInt(...)` in the source are modelled
  as `Int` (the source stores them as decimal strings and re-parses them
  with `BigInt` at every read; `BigInt ∘ toString` is the identity on
  integers, so we carry the integers directly);
* wall-clock times (`Date.now()`, milliseconds) are modelled as `Int` and
  threaded explicitly as a `now` argument;
* the external cryptographic verification call
  (`xrpl.verifyPaymentChannelClaim`) is modelled as an oracle function
  parameter `verifySig`; theorems quantify over it;
* maps (`this.channels`, `this.claimHistory`) are modelled as functions
  with the source's read defaults (`|| '0'`, `|| []`);
* the store's disk persistence (`persist`) only mirrors the in-memory
  maps and is not modelled.
-/

namespace XrplStream

/-- One entry of a channel's claim history, as written by
`ChannelStore.addClaimToHistory` (the claim fields plus the timestamp the
store attaches). -/
structure HistoryEntry where
  amount : Int
  signature : String
  publicKey : String
  timestamp : Int
deriving DecidableEq, Repr

/-- A channel ledger record.  Source records are open JS objects built by
field merges, so every field is optional here (`none` = key absent). -/
structure ChannelRecord where
  channelId : Option String := none
  lastValidAmount : Option Int := none
  lastSignature : Option String := none
  lastUpdateTime : Option Int := none
  publicKey : Option String := none
  lastFinalizedAmount : Option Int := none
  lastFinalizationTime : Option Int := none
  createdAt : Option Int := none
  lastModified : Option Int := none
deriving DecidableEq, Repr

/-- JS object spread `{...existing, ...data}`: a key present in `data`
overrides `existing`. -/
def ChannelRecord.merge (existing data : ChannelRecord) : ChannelRecord where
  channelId := data.channelId.or existing.channelId
  lastValidAmount := data.lastValidAmount.or existing.lastValidAmount
  lastSignature := data.lastSignature.or existing.lastSignature
  lastUpdateTime := data.lastUpdateTime.or existing.lastUpdateTime
  publicKey := data.publicKey.or existing.publicKey
  lastFinalizedAmount := data.lastFinalizedAmount.or existing.lastFinalizedAmount
  lastFinalizationTime := data.lastFinalizationTime.or existing.lastFinalizationTime
  createdAt := data.createdAt.or existing.createdAt
  lastModified := data.lastModified.or existing.lastModified

/-- The in-memory state of a `ChannelStore`: the `channels` map and the
`claimHistory` map (`claimHistory.get(id) || []` reads default to `[]`). -/
structure ChannelStore where
  channels : String → Option ChannelRecord
  claimHistory : String → List HistoryEntry

/-- The store with no channels and no history. -/
def ChannelStore.empty : ChannelStore where
  channels := fun _ => none
  claimHistory := fun _ => []

/-- `ChannelStore.updateChannel`: merge `data` into the existing record
(or a fresh `{}`), stamp `channelId` and `lastModified`, store the result
and return it. -/
def ChannelStore.updateChannel (s : ChannelStore) (channelId : String)
    (data : ChannelRecord) (now : Int) : ChannelStore × ChannelRecord :=
  let existing := (s.channels channelId).getD {}
  let updated :=
    { ChannelRecord.merge existing data with
        channelId := some channelId, lastModified := some now }
  ({ s with channels := fun c => if c = channelId then some updated else s.channels c },
   updated)

/-- `ChannelStore.getChannelData`: `this.channels.get(channelId) || null`. -/
def ChannelStore.getChannelData (s : ChannelStore) (channelId : String) :
    Option ChannelRecord :=
  s.channels channelId

/-- `ChannelStore.getLastValidAmount`: `channel?.lastValidAmount || '0'`
(missing record or missing field reads as `'0'`; stored amounts are
non-empty decimal strings, so JS truthiness agrees with `getD 0`). -/
def ChannelStore.getLastValidAmount (s : ChannelStore) (channelId : String) : Int :=
  ((s.channels channelId).bind (·.lastValidAmount)).getD 0

/-- `ChannelStore.addClaimToHistory`: push the claim with an attached
timestamp, then drop the oldest entry if the history exceeds 1000. -/
def ChannelStore.addClaimToHistory (s : ChannelStore) (channelId : String)
    (amount : Int) (signature publicKey : String) (now : Int) : ChannelStore :=
  let history := s.claimHistory channelId ++ [⟨amount, signature, publicKey, now⟩]
  let history := if history.length > 1000 then history.drop 1 else history
  { s with claimHistory := fun c => if c = channelId then history else s.claimHistory c }

/-- `ChannelStore.getRecentClaims`: history entries with
`timestamp >= now - timeWindowMs`. -/
def ChannelStore.getRecentClaims (s : ChannelStore) (channelId : String)
    (timeWindowMs : Int) (now : Int) : List HistoryEntry :=
  (s.claimHistory channelId).filter (fun claim => decide (now - timeWindowMs ≤ claim.timestamp))

/-- `ChannelStore.initializeChannel`: write
`{channelId, lastValidAmount: '0', lastFinalizedAmount: '0', createdAt, ...metadata}`
to the channels map (metadata spread last, so it overrides the defaults)
and set the claim history to `[]`, returning the record.  Note the source
performs these writes unconditionally. -/
def ChannelStore.initializeChannel (s : ChannelStore) (channelId : String)
    (metadata : ChannelRecord) (now : Int) : ChannelStore × ChannelRecord :=
  let defaults : ChannelRecord :=
    { channelId := some channelId, lastValidAmount := some 0,
      lastFinalizedAmount := some 0, createdAt := some now }
  let channelData := ChannelRecord.merge defaults metadata
  ({ s with
      channels := fun c => if c = channelId then some channelData else s.channels c,
      claimHistory := fun c => if c = channelId then [] else s.claimHistory c },
   channelData)

/-- `ChannelStore.hasChannel`. -/
def ChannelStore.hasChannel (s : ChannelStore) (channelId : String) : Bool :=
  (s.channels channelId).isSome

/-- Channel information from the ledger, as consumed by `validateClaim`
(`channelInfo.Amount`, `channelInfo.PublicKey`). -/
structure ChannelInfo where
  Amount : Int
  PublicKey : String
deriving DecidableEq, Repr

/-- The result objects built by `validateClaim` /
`validateAndStoreClaim`.  Each source branch returns a different set of
keys, so all result fields are optional (`none` = key absent). -/
structure ValidationResult where
  valid : Bool
  reason : Option String := none
  channelId : String
  amount : Option Int := none
  previousAmount : Option Int := none
  channelBalance : Option Int := none
  increment : Option Int := none
  signature : Option String := none
  publicKey : Option String := none
  timestamp : Option Int := none
  providedKey : Option String := none
  expectedKey : Option String := none
  stored : Bool := false
deriving DecidableEq, Repr

/-- The oracle type for the external
`xrpl.verifyPaymentChannelClaim(channelId, xrpAmount, signature, publicKey)`
call: a boolean verdict on `(channelId, amount, signature, publicKey)`. -/
abbrev SigOracle := String → Int → String → String → Bool

/-- The success object `validateClaim` returns once every check passed. -/
def successResult (channelId : String) (amount previousAmount : Int)
    (signature publicKey : String) (now : Int) : ValidationResult :=
  { valid := true, channelId := channelId, amount := some amount,
    previousAmount := some previousAmount,
    increment := some (amount - previousAmount),
    signature := some signature, publicKey := some publicKey,
    timestamp := some now }

/-- `validateClaim` (validator half of `src/core/contract.js`):
1. external signature check (reject `"Invalid signature"`);
2. monotonicity check against `getLastValidAmount` (reject
   `"Amount must be greater than previous claim"`, with `previousAmount`);
3. if `channelInfo` is provided: balance check (reject
   `"Amount exceeds channel balance"`) and public-key binding check
   (reject `"Public key does not match channel"`);
4. otherwise return the success object with the computed `increment`. -/
def validateClaim (verifySig : SigOracle) (s : ChannelStore) (channelId : String)
    (amount : Int) (signature publicKey : String)
    (channelInfo : Option ChannelInfo) (now : Int) : ValidationResult :=
  if verifySig channelId amount signature publicKey then
    let previousAmount := s.getLastValidAmount channelId
    if amount ≤ previousAmount then
      { valid := false, reason := some "Amount must be greater than previous claim",
        channelId := channelId, amount := some amount,
        previousAmount := some previousAmount }
    else
      let success := successResult channelId amount previousAmount signature publicKey now
      match channelInfo with
      | some info =>
          if info.Amount < amount then
            { valid := false, reason := some "Amount exceeds channel balance",
              channelId := channelId, amount := some amount,
              channelBalance := some info.Amount }
          else if info.PublicKey ≠ publicKey then
            { valid := false, reason := some "Public key does not match channel",
              channelId := channelId, providedKey := some publicKey,
              expectedKey := some info.PublicKey }
          else success
      | none => success
  else
    { valid := false, reason := some "Invalid signature",
      channelId := channelId, amount := some amount }

/-- `validateAndStoreClaim`: run `validateClaim`; on success commit
`{lastValidAmount, lastSignature, lastUpdateTime, publicKey}` through
`updateChannel` and flag the result `stored`; on rejection return the
rejection unchanged (no store write). -/
def validateAndStoreClaim (verifySig : SigOracle) (s : ChannelStore)
    (channelId : String) (amount : Int) (signature publicKey : String)
    (channelInfo : Option ChannelInfo) (now : Int) :
    ValidationResult × ChannelStore :=
  let validationResult :=
    validateClaim verifySig s channelId amount signature publicKey channelInfo now
  if validationResult.valid then
    let updated := s.updateChannel channelId
      { lastValidAmount := some amount, lastSignature := some signature,
        lastUpdateTime := some now, publicKey := some publicKey } now
    ({ validationResult with stored := true }, updated.1)
  else
    (validationResult, s)

/-- Result object of `validateClaimRate`. -/
structure RateResult where
  valid : Bool
  reason : Option String := none
  currentRate : Nat
  maxRate : Nat
deriving DecidableEq, Repr

/-- `validateClaimRate`: count history entries in the trailing 60000 ms
window via `getRecentClaims`; reject when the count reaches
`maxClaimsPerMinute` (source default 60). -/
def validateClaimRate (s : ChannelStore) (channelId : String)
    (maxClaimsPerMinute : Nat) (now : Int) : RateResult :=
  let recentClaims := s.getRecentClaims channelId 60000 now
  if recentClaims.length ≥ maxClaimsPerMinute then
    { valid := false, reason := some "Claim rate limit exceeded",
      currentRate := recentClaims.length, maxRate := maxClaimsPerMinute }
  else
    { valid := true, currentRate := recentClaims.length,
      maxRate := maxClaimsPerMinute }

/-- Options of `shouldFinalizeClaim`, with the source defaults
(100 XRP = 100000000 drops; 1 hour = 3600000 ms). -/
structure FinalizeOptions where
  minAmountToFinalize : Int := 100000000
  maxTimeSinceLastFinalization : Int := 3600000
deriving DecidableEq, Repr

/-- Result object of `shouldFinalizeClaim` (the float `unclaimedXRP`
display field is not modelled). -/
structure FinalizeResult where
  shouldFinalize : Bool
  reason : String
  unclaimedAmount : Option Int := none
  timeSinceLastFinalization : Option Int := none
deriving DecidableEq, Repr

/-- `shouldFinalizeClaim`: over the channel record, with
`unclaimed = lastValidAmount - lastFinalizedAmount`, recommend
finalization when `unclaimed >= minAmountToFinalize`, or when
`now - lastFinalizationTime > maxTimeSinceLastFinalization` and
`unclaimed > 0`.  It reads the store and builds a recommendation; it
performs no store write (its type here has no store output). -/
def shouldFinalizeClaim (s : ChannelStore) (channelId : String)
    (options : FinalizeOptions) (now : Int) : FinalizeResult :=
  match s.getChannelData channelId with
  | none => { shouldFinalize := false, reason := "No channel data found" }
  | some channelData =>
    let currentAmount := channelData.lastValidAmount.getD 0
    let lastFinalized := channelData.lastFinalizedAmount.getD 0
    let unclaimedAmount := currentAmount - lastFinalized
    if unclaimedAmount ≥ options.minAmountToFinalize then
      { shouldFinalize := true, reason := "Unclaimed amount threshold reached",
        unclaimedAmount := some unclaimedAmount }
    else
      let timeSinceLastFinalization := now - channelData.lastFinalizationTime.getD 0
      if timeSinceLastFinalization > options.maxTimeSinceLastFinalization ∧
          unclaimedAmount > 0 then
        { shouldFinalize := true, reason := "Time threshold exceeded",
          unclaimedAmount := some unclaimedAmount,
          timeSinceLastFinalization := some timeSinceLastFinalization }
      else
        { shouldFinalize := false, reason := "No finalization criteria met",
          unclaimedAmount := some unclaimedAmount }

/-- Sender-side `StreamingSigner` session state (`src/core/signer.js`).
`startTime` is `null` before the first `start()`. -/
structure StreamingSigner where
  ratePerSecond : Int
  currentTotal : Int := 0
  startTime : Option Int := none
  isActive : Bool := false
deriving DecidableEq, Repr

/-- `start()`: record the wall clock and activate. -/
def StreamingSigner.start (sg : StreamingSigner) (now : Int) : StreamingSigner :=
  { sg with startTime := some now, isActive := true }

/-- `stop()`: deactivate.  The source touches nothing else — in
particular `currentTotal` keeps its pre-session value. -/
def StreamingSigner.stop (sg : StreamingSigner) : StreamingSigner :=
  { sg with isActive := false }

/-- JS truthiness of `this.startTime` in the guard
`if (!this.isActive || !this.startTime)`: `null` and `0` are falsy. -/
def startTimeTruthy : Option Int → Bool
  | none => false
  | some t => decide (t ≠ 0)

/-- `getCurrentAmount()`: when inactive (or `startTime` falsy) return
`currentTotal`; otherwise `currentTotal + floor((now - startTime)/1000) * rate`
(`Math.floor` of the real quotient is `Int.fdiv`). -/
def StreamingSigner.getCurrentAmount (sg : StreamingSigner) (now : Int) : Int :=
  if sg.isActive && startTimeTruthy sg.startTime then
    let elapsed := (now - sg.startTime.getD 0).fdiv 1000
    sg.currentTotal + elapsed * sg.ratePerSecond
  else
    sg.currentTotal

/-- `signCurrentClaim()` signs the claim for `getCurrentAmount()`; the
cryptographic signing is the external library call, so the modelled
content is the amount placed in the claim. -/
def StreamingSigner.signCurrentClaim (sg : StreamingSigner) (now : Int) : Int :=
  sg.getCurrentAmount now

/-- `updateTotal(newTotal)`: rebase `currentTotal` and restart the clock.
(No caller in the repository invokes it.) -/
def StreamingSigner.updateTotal (sg : StreamingSigner) (newTotal now : Int) :
    StreamingSigner :=
  { sg with currentTotal := newTotal, startTime := some now }

/-- One incoming claim submission for a run of the validator. -/
structure ClaimInput where
  channelId : String
  amount : Int
  signature : String
  publicKey : String
  channelInfo : Option ChannelInfo
  now : Int

/-- Fold `validateAndStoreClaim` over a list of submissions, collecting
`(channelId, amount)` of each accepted claim in order. -/
def processClaims (verifySig : SigOracle) (s : ChannelStore) :
    List ClaimInput → ChannelStore × List (String × Int)
  | [] => (s, [])
  | inp :: rest =>
    let step := validateAndStoreClaim verifySig s inp.channelId inp.amount
      inp.signature inp.publicKey inp.channelInfo inp.now
    let tail := processClaims verifySig step.2 rest
    (tail.1, (if step.1.valid then [(inp.channelId, inp.amount)] else []) ++ tail.2)

/-- The amounts accepted for one channel during a run, in acceptance
order. -/
def acceptedAmounts (verifySig : SigOracle) (s : ChannelStore)
    (inputs : List ClaimInput) (channelId : String) : List Int :=
  ((processClaims verifySig s inputs).2.filter (fun p => p.1 == channelId)).map (·.2)

/-! Concrete fixtures used to evaluate the definitions on explicit
inputs. -/

/-- An oracle accepting every signature. -/
def oracleTrue : SigOracle := fun _ _ _ _ => true

/-- An oracle rejecting every signature. -/
def oracleFalse : SigOracle := fun _ _ _ _ => false

/-- A store holding one channel `"chan"` whose record carries
`lastValidAmount = a`, `lastFinalizedAmount = 0`, and a one-entry claim
history. -/
def testStore (a : Int) : ChannelStore where
  channels := fun c =>
    if c = "chan" then
      some { channelId := some "chan", lastValidAmount := some a,
             lastFinalizedAmount := some 0 }
    else none
  claimHistory := fun c =>
    if c = "chan" then [⟨a, "sig0", "pk0", 500⟩] else []

/-- A fresh signer at 1000 drops/second, started at wall clock 1000 ms. -/
def sampleSigner : StreamingSigner :=
  ({ ratePerSecond := 1000 } : StreamingSigner).start 1000

/-! Helper lemmas about the embedded operations. -/

/-- A chain from any head gives a chain between adjacent list elements. -/
theorem chain'_of_chain {α : Type} {r : α → α → Prop} {x : α} {l : List α}
    (h : List.Chain r x l) : List.Chain' r l := by
  cases l with
  | nil => trivial
  | cons b t => exact (List.chain_cons.mp h).2

theorem validateClaim_sig_fail {v : SigOracle} {s : ChannelStore} {cid : String}
    {a : Int} {sig pk : String} {info : Option ChannelInfo} {now : Int}
    (h : v cid a sig pk = false) :
    validateClaim v s cid a sig pk info now =
      { valid := false, reason := some "Invalid signature",
        channelId := cid, amount := some a } := by
  unfold validateClaim
  rw [h]
  simp

theorem validateClaim_stale {v : SigOracle} {s : ChannelStore} {cid : String}
    {a : Int} {sig pk : String} {info : Option ChannelInfo} {now : Int}
    (hv : v cid a sig pk = true) (h : a ≤ s.getLastValidAmount cid) :
    validateClaim v s cid a sig pk info now =
      { valid := false, reason := some "Amount must be greater than previous claim",
        channelId := cid, amount := some a,
        previousAmount := some (s.getLastValidAmount cid) } := by
  unfold validateClaim
  rw [hv]
  simp [h]

theorem validateClaim_valid_iff {v : SigOracle} {s : ChannelStore} {cid : String}
    {a : Int} {sig pk : String} {info : Option ChannelInfo} {now : Int} :
    (validateClaim v s cid a sig pk info now).valid = true ↔
      (v cid a sig pk = true ∧ s.getLastValidAmount cid < a ∧
        ∀ i, info = some i → a ≤ i.Amount ∧ i.PublicKey = pk) := by
  unfold validateClaim
  cases hb : v cid a sig pk with
  | false => simp [hb]
  | true =>
    simp only [hb, if_true, true_and]
    by_cases hle : a ≤ s.getLastValidAmount cid
    · simp only [if_pos hle]
      constructor
      · intro h; simp at h
      · rintro ⟨hlt, -⟩; omega
    · simp only [if_neg hle]
      cases info with
      | none => simp [successResult]; omega
      | some i =>
        by_cases hcap : i.Amount < a
        · simp only [if_pos hcap]
          constructor
          · intro h; simp at h
          · rintro ⟨-, hall⟩
            have := (hall i rfl).1
            omega
        · simp only [if_neg hcap]
          by_cases hkey : i.PublicKey ≠ pk
          · simp only [if_pos hkey]
            constructor
            · intro h; simp at h
            · rintro ⟨-, hall⟩
              exact absurd (hall i rfl).2 hkey
          · simp only [if_neg hkey]
            push_neg at hkey
            simp only [successResult, not_lt] at *
            constructor
            · intro _
              exact ⟨by omega, fun i' hi' => by cases hi'; exact ⟨by omega, hkey⟩⟩
            · intro _; trivial

theorem validateClaim_success_eq {v : SigOracle} {s : ChannelStore} {cid : String}
    {a : Int} {sig pk : String} {info : Option ChannelInfo} {now : Int}
    (h : (validateClaim v s cid a sig pk info now).valid = true) :
    validateClaim v s cid a sig pk info now =
      successResult cid a (s.getLastValidAmount cid) sig pk now := by
  obtain ⟨hb, hlt, hall⟩ := validateClaim_valid_iff.mp h
  unfold validateClaim
  rw [hb]
  simp only [if_true, if_neg (not_le.mpr hlt)]
  cases info with
  | none => simp
  | some i =>
    obtain ⟨hcap, hkey⟩ := hall i rfl
    simp [if_neg (not_lt.mpr hcap), hkey]

theorem validateAndStoreClaim_fst_valid {v : SigOracle} {s : ChannelStore}
    {cid : String} {a : Int} {sig pk : String} {info : Option ChannelInfo}
    {now : Int} :
    (validateAndStoreClaim v s cid a sig pk info now).1.valid =
      (validateClaim v s cid a sig pk info now).valid := by
  unfold validateAndStoreClaim
  by_cases h : (validateClaim v s cid a sig pk info now).valid = true <;>
    simp [h]

theorem validateAndStoreClaim_of_reject {v : SigOracle} {s : ChannelStore}
    {cid : String} {a : Int} {sig pk : String} {info : Option ChannelInfo}
    {now : Int} (h : (validateClaim v s cid a sig pk info now).valid = false) :
    validateAndStoreClaim v s cid a sig pk info now =
      (validateClaim v s cid a sig pk info now, s) := by
  unfold validateAndStoreClaim
  simp [h]

theorem validateAndStoreClaim_of_accept {v : SigOracle} {s : ChannelStore}
    {cid : String} {a : Int} {sig pk : String} {info : Option ChannelInfo}
    {now : Int} (h : (validateClaim v s cid a sig pk info now).valid = true) :
    validateAndStoreClaim v s cid a sig pk info now =
      ({ validateClaim v s cid a sig pk info now with stored := true },
        (s.updateChannel cid
          { lastValidAmount := some a, lastSignature := some sig,
            lastUpdateTime := some now, publicKey := some pk } now).1) := by
  unfold validateAndStoreClaim
  simp [h]

theorem updateChannel_channels_self (s : ChannelStore) (cid : String)
    (data : ChannelRecord) (now : Int) :
    ((s.updateChannel cid data now).1).channels cid =
      some { ChannelRecord.merge ((s.channels cid).getD {}) data with
               channelId := some cid, lastModified := some now } := by
  unfold ChannelStore.updateChannel
  simp

theorem updateChannel_channels_other {s : ChannelStore} {cid c : String}
    {data : ChannelRecord} {now : Int} (h : c ≠ cid) :
    ((s.updateChannel cid data now).1).channels c = s.channels c := by
  unfold ChannelStore.updateChannel
  simp [h]

theorem updateChannel_claimHistory (s : ChannelStore) (cid : String)
    (data : ChannelRecord) (now : Int) :
    ((s.updateChannel cid data now).1).claimHistory = s.claimHistory := rfl

theorem getLastValidAmount_updateChannel_self {s : ChannelStore} {cid : String}
    {data : ChannelRecord} {now : Int} {a : Int}
    (hd : data.lastValidAmount = some a) :
    ((s.updateChannel cid data now).1).getLastValidAmount cid = a := by
  unfold ChannelStore.getLastValidAmount
  rw [updateChannel_channels_self]
  simp [ChannelRecord.merge, hd]

theorem getLastValidAmount_updateChannel_other {s : ChannelStore} {cid c : String}
    {data : ChannelRecord} {now : Int} (h : c ≠ cid) :
    ((s.updateChannel cid data now).1).getLastValidAmount c =
      s.getLastValidAmount c := by
  unfold ChannelStore.getLastValidAmount
  rw [updateChannel_channels_other h]

theorem acceptedAmounts_nil (v : SigOracle) (s : ChannelStore) (cid : String) :
    acceptedAmounts v s [] cid = [] := rfl

theorem processClaims_cons (v : SigOracle) (s : ChannelStore)
    (inp : ClaimInput) (rest : List ClaimInput) :
    processClaims v s (inp :: rest) =
      ((processClaims v (validateAndStoreClaim v s inp.channelId inp.amount
          inp.signature inp.publicKey inp.channelInfo inp.now).2 rest).1,
        (if (validateAndStoreClaim v s inp.channelId inp.amount inp.signature
              inp.publicKey inp.channelInfo inp.now).1.valid then
            [(inp.channelId, inp.amount)]
          else []) ++
        (processClaims v (validateAndStoreClaim v s inp.channelId inp.amount
          inp.signature inp.publicKey inp.channelInfo inp.now).2 rest).2) := rfl

theorem acceptedAmounts_cons (v : SigOracle) (s : ChannelStore)
    (inp : ClaimInput) (rest : List ClaimInput) (cid : String) :
    acceptedAmounts v s (inp :: rest) cid =
      ((if (validateAndStoreClaim v s inp.channelId inp.amount inp.signature
              inp.publicKey inp.channelInfo inp.now).1.valid then
          [(inp.channelId, inp.amount)]
        else []).filter (fun p => p.1 == cid)).map (·.2) ++
        acceptedAmounts v (validateAndStoreClaim v s inp.channelId inp.amount
          inp.signature inp.publicKey inp.channelInfo inp.now).2 rest cid := by
  unfold acceptedAmounts
  rw [processClaims_cons, List.filter_append, List.map_append]

/-- Along any run of the validator, every amount accepted for a channel
strictly exceeds the channel's stored `lastValidAmount` at the start of
the run, and each accepted amount exceeds the previous accepted one. -/
theorem chain_acceptedAmounts (v : SigOracle) (inputs : List ClaimInput) :
    ∀ (s : ChannelStore) (cid : String),
      List.Chain (· < ·) (s.getLastValidAmount cid)
        (acceptedAmounts v s inputs cid) := by
  induction inputs with
  | nil => intro s cid; rw [acceptedAmounts_nil]; exact List.Chain.nil
  | cons inp rest ih =>
    intro s cid
    rw [acceptedAmounts_cons]
    by_cases hv : (validateClaim v s inp.channelId inp.amount inp.signature
        inp.publicKey inp.channelInfo inp.now).valid = true
    · have h1 : (validateAndStoreClaim v s inp.channelId inp.amount inp.signature
          inp.publicKey inp.channelInfo inp.now).1.valid = true := by
        rw [validateAndStoreClaim_fst_valid]; exact hv
      have hstep := validateAndStoreClaim_of_accept hv
      by_cases hc : inp.channelId = cid
      · subst hc
        have hlt : s.getLastValidAmount inp.channelId < inp.amount :=
          (validateClaim_valid_iff.mp hv).2.1
        have hlast : ((validateAndStoreClaim v s inp.channelId inp.amount
            inp.signature inp.publicKey inp.channelInfo inp.now).2).getLastValidAmount
              inp.channelId = inp.amount := by
          rw [hstep]
          exact getLastValidAmount_updateChannel_self rfl
        have hpre : ((if (validateAndStoreClaim v s inp.channelId inp.amount
              inp.signature inp.publicKey inp.channelInfo inp.now).1.valid then
            [(inp.channelId, inp.amount)]
          else []).filter (fun p => p.1 == inp.channelId)).map (·.2) =
            [inp.amount] := by
          simp [h1]
        rw [hpre, List.singleton_append]
        have h2 := ih (validateAndStoreClaim v s inp.channelId inp.amount
          inp.signature inp.publicKey inp.channelInfo inp.now).2 inp.channelId
        rw [hlast] at h2
        exact List.Chain.cons hlt h2
      · have hne : (inp.channelId == cid) = false := beq_eq_false_iff_ne.mpr hc
        have hlast : ((validateAndStoreClaim v s inp.channelId inp.amount
            inp.signature inp.publicKey inp.channelInfo inp.now).2).getLastValidAmount
              cid = s.getLastValidAmount cid := by
          rw [hstep]
          exact getLastValidAmount_updateChannel_other (fun h => hc h.symm)
        have hpre : ((if (validateAndStoreClaim v s inp.channelId inp.amount
              inp.signature inp.publicKey inp.channelInfo inp.now).1.valid then
            [(inp.channelId, inp.amount)]
          else []).filter (fun p => p.1 == cid)).map (·.2) = [] := by
          simp [h1, hne]
        rw [hpre, List.nil_append]
        have h2 := ih (validateAndStoreClaim v s inp.channelId inp.amount
          inp.signature inp.publicKey inp.channelInfo inp.now).2 cid
        rw [hlast] at h2
        exact h2
    · have hv' : (validateClaim v s inp.channelId inp.amount inp.signature
          inp.publicKey inp.channelInfo inp.now).valid = false :=
        Bool.eq_false_iff.mpr hv
      have h1 : (validateAndStoreClaim v s inp.channelId inp.amount inp.signature
          inp.publicKey inp.channelInfo inp.now).1.valid = false := by
        rw [validateAndStoreClaim_fst_valid]; exact hv'
      have hstep := validateAndStoreClaim_of_reject hv'
      have hpre : ((if (validateAndStoreClaim v s inp.channelId inp.amount
            inp.signature inp.publicKey inp.channelInfo inp.now).1.valid then
          [(inp.channelId, inp.amount)]
        else []).filter (fun p => p.1 == cid)).map (·.2) = [] := by
        simp [h1]
      rw [hpre, List.nil_append, hstep]
      exact ih s cid

theorem getLastValidAmount_of_none {s : ChannelStore} {cid : String}
    (h : s.channels cid = none) : s.getLastValidAmount cid = 0 := by
  unfold ChannelStore.getLastValidAmount
  rw [h]
  rfl

theorem getCurrentAmount_active {sg : StreamingSigner} {T : Int} (t : Int)
    (hA : sg.isActive = true) (hT : sg.startTime = some T) (hT0 : T ≠ 0) :
    sg.getCurrentAmount t =
      sg.currentTotal + ((t - T).fdiv 1000) * sg.ratePerSecond := by
  unfold StreamingSigner.getCurrentAmount
  rw [hA, hT]
  simp [startTimeTruthy, hT0]

theorem validateClaimRate_of_ge {s : ChannelStore} {cid : String} {n : Nat}
    {now : Int} (h : n ≤ (s.getRecentClaims cid 60000 now).length) :
    validateClaimRate s cid n now =
      { valid := false, reason := some "Claim rate limit exceeded",
        currentRate := (s.getRecentClaims cid 60000 now).length,
        maxRate := n } := by
  unfold validateClaimRate
  simp [h]

theorem validateClaimRate_of_lt {s : ChannelStore} {cid : String} {n : Nat}
    {now : Int} (h : (s.getRecentClaims cid 60000 now).length < n) :
    validateClaimRate s cid n now =
      { valid := true,
        currentRate := (s.getRecentClaims cid 60000 now).length,
        maxRate := n } := by
  unfold validateClaimRate
  simp [Nat.not_le.mpr h]

theorem getRecentClaims_length_eq_countP (s : ChannelStore) (cid : String)
    (now : Int) :
    (s.getRecentClaims cid 60000 now).length =
      (s.claimHistory cid).countP (fun e => decide (now - e.timestamp ≤ 60000)) := by
  unfold ChannelStore.getRecentClaims
  rw [List.countP_eq_length_filter]
  congr 1
  apply List.filter_congr
  intro e _
  simp only [decide_eq_decide]
  omega

/-! Claim theorems. -/

/-- C1: a claim whose amount is at most the stored `lastValidAmount`
(a missing record reading as 0) is rejected by `validateClaim`
(`valid = false` with a populated reason, and — whenever the external
signature check passes — the stale-claim reason together with the
previous amount), `validateAndStoreClaim` leaves the store untouched on
such a claim, and along any run of the validator the sequence of amounts
accepted for a channel is strictly increasing. -/
theorem stale_claim_rejected_and_accepted_amounts_increasing :
    (∀ (v : SigOracle) (s : ChannelStore) (cid : String) (a : Int)
        (sig pk : String) (info : Option ChannelInfo) (now : Int),
      a ≤ s.getLastValidAmount cid →
        (validateClaim v s cid a sig pk info now).valid = false ∧
        (validateClaim v s cid a sig pk info now).reason.isSome = true ∧
        (v cid a sig pk = true →
          (validateClaim v s cid a sig pk info now).reason =
            some "Amount must be greater than previous claim" ∧
          (validateClaim v s cid a sig pk info now).previousAmount =
            some (s.getLastValidAmount cid)) ∧
        (validateAndStoreClaim v s cid a sig pk info now).2 = s) ∧
    (∀ (v : SigOracle) (s : ChannelStore) (inputs : List ClaimInput)
        (cid : String),
      List.Chain' (· < ·) (acceptedAmounts v s inputs cid)) := by
  constructor
  · intro v s cid a sig pk info now h
    have hvalid : (validateClaim v s cid a sig pk info now).valid = false := by
      cases hb : v cid a sig pk with
      | false => rw [validateClaim_sig_fail hb]
      | true => rw [validateClaim_stale hb h]
    refine ⟨hvalid, ?_, ?_, ?_⟩
    · cases hb : v cid a sig pk with
      | false => rw [validateClaim_sig_fail hb]; rfl
      | true => rw [validateClaim_stale hb h]; rfl
    · intro hb
      rw [validateClaim_stale hb h]
      exact ⟨rfl, rfl⟩
    · rw [validateAndStoreClaim_of_reject hvalid]
  · intro v s inputs cid
    exact chain'_of_chain (chain_acceptedAmounts v inputs s cid)

/-- C1 witness: the hypotheses of the rejection part hold at a concrete
store that already recorded amount 5000, and the theorem yields the
concrete rejection there. -/
theorem stale_claim_rejected_witness :
    (5000 : Int) ≤ (testStore 5000).getLastValidAmount "chan" ∧
    (validateClaim oracleTrue (testStore 5000) "chan" 5000 "s1" "p1" none 9).valid = false ∧
    (validateClaim oracleTrue (testStore 5000) "chan" 5000 "s1" "p1" none 9).previousAmount =
      some 5000 := by
  refine ⟨by decide, ?_, ?_⟩
  · exact (stale_claim_rejected_and_accepted_amounts_increasing.1 oracleTrue
      (testStore 5000) "chan" 5000 "s1" "p1" none 9 (by decide)).1
  · have h := ((stale_claim_rejected_and_accepted_amounts_increasing.1 oracleTrue
      (testStore 5000) "chan" 5000 "s1" "p1" none 9 (by decide)).2.2.1 rfl).2
    exact h.trans (by decide)

/-- C3: every rejected claim (invalid signature, non-increasing amount,
capacity exceeded, or key mismatch — i.e. whenever the returned result
carries `valid = false`) leaves the channel store exactly as it was: the
whole store, the channel's record and the channel's claim history are
unchanged. -/
theorem rejected_claim_leaves_store_unchanged :
    ∀ (v : SigOracle) (s : ChannelStore) (cid : String) (a : Int)
      (sig pk : String) (info : Option ChannelInfo) (now : Int),
      (validateAndStoreClaim v s cid a sig pk info now).1.valid = false →
        (validateAndStoreClaim v s cid a sig pk info now).2 = s ∧
        (validateAndStoreClaim v s cid a sig pk info now).2.channels cid =
          s.channels cid ∧
        (validateAndStoreClaim v s cid a sig pk info now).2.claimHistory cid =
          s.claimHistory cid := by
  intro v s cid a sig pk info now h
  have hv : (validateClaim v s cid a sig pk info now).valid = false := by
    rw [← validateAndStoreClaim_fst_valid]; exact h
  rw [validateAndStoreClaim_of_reject hv]
  exact ⟨rfl, rfl, rfl⟩

/-- C3 witness: a concrete rejection (oracle refuses the signature) at a
concrete store, where the theorem yields the unchanged store. -/
theorem rejected_claim_leaves_store_unchanged_witness :
    (validateAndStoreClaim oracleFalse (testStore 40) "chan" 50 "s3" "p3" none 0).1.valid = false ∧
    (validateAndStoreClaim oracleFalse (testStore 40) "chan" 50 "s3" "p3" none 0).2 =
      testStore 40 := by
  refine ⟨by decide, ?_⟩
  exact (rejected_claim_leaves_store_unchanged oracleFalse (testStore 40) "chan"
    50 "s3" "p3" none 0 (by decide)).1

/-- C2 counterexample: at a concrete accepted claim (fresh store, amount
5), `validateAndStoreClaim` accepts and persists the record, yet the
channel's claim history stays empty — the function appends nothing to
history, contradicting the claim as stated. -/
theorem validateAndStoreClaim_appends_no_history :
    (validateAndStoreClaim oracleTrue ChannelStore.empty "chan" 5 "sig2" "pk2" none 1000).1.valid = true ∧
    (validateAndStoreClaim oracleTrue ChannelStore.empty "chan" 5 "sig2" "pk2" none 1000).1.stored = true ∧
    ((validateAndStoreClaim oracleTrue ChannelStore.empty "chan" 5 "sig2" "pk2" none 1000).2.channels "chan").bind
      (·.lastValidAmount) = some 5 ∧
    (validateAndStoreClaim oracleTrue ChannelStore.empty "chan" 5 "sig2" "pk2" none 1000).2.claimHistory "chan" = [] := by
  decide

/-- C2 (amended): for every claim that passes validation,
`validateAndStoreClaim` persists `lastValidAmount = amount`,
`lastSignature`, `lastUpdateTime` (and the public key) to the channel
store and returns a success result flagged `stored` whose `increment`
equals the claim amount minus the previously stored amount; the claim
history maps are left unchanged (the HTTP layer appends to history
separately, outside this function). -/
theorem validateAndStoreClaim_persists_record_and_increment :
    ∀ (v : SigOracle) (s : ChannelStore) (cid : String) (a : Int)
      (sig pk : String) (info : Option ChannelInfo) (now : Int),
      (validateClaim v s cid a sig pk info now).valid = true →
        (validateAndStoreClaim v s cid a sig pk info now).1.valid = true ∧
        (validateAndStoreClaim v s cid a sig pk info now).1.stored = true ∧
        (validateAndStoreClaim v s cid a sig pk info now).1.increment =
          some (a - s.getLastValidAmount cid) ∧
        (validateAndStoreClaim v s cid a sig pk info now).2.claimHistory =
          s.claimHistory ∧
        ∃ rec, (validateAndStoreClaim v s cid a sig pk info now).2.channels cid =
            some rec ∧
          rec.lastValidAmount = some a ∧ rec.lastSignature = some sig ∧
          rec.lastUpdateTime = some now ∧ rec.publicKey = some pk := by
  intro v s cid a sig pk info now h
  rw [validateAndStoreClaim_of_accept h]
  refine ⟨h, rfl, ?_, updateChannel_claimHistory .., ?_⟩
  · show (validateClaim v s cid a sig pk info now).increment = _
    rw [validateClaim_success_eq h]
    rfl
  · refine ⟨_, updateChannel_channels_self .., ?_, ?_, ?_, ?_⟩ <;>
      simp [ChannelRecord.merge]

/-- C2 witness: the amended theorem applied at a concrete accepted claim
(fresh store, amount 5), giving increment 5. -/
theorem validateAndStoreClaim_persists_witness :
    (validateClaim oracleTrue ChannelStore.empty "chan" 5 "sig2" "pk2" none 1000).valid = true ∧
    (validateAndStoreClaim oracleTrue ChannelStore.empty "chan" 5 "sig2" "pk2" none 1000).1.increment =
      some 5 := by
  refine ⟨by decide, ?_⟩
  have h := (validateAndStoreClaim_persists_record_and_increment oracleTrue
    ChannelStore.empty "chan" 5 "sig2" "pk2" none 1000 (by decide)).2.2.1
  exact h.trans (by decide)

/-- C4: while a session is active with start time `T` (a wall-clock value,
hence nonzero) and rate `R`, `getCurrentAmount`/`signCurrentClaim` at time
`t` yield `currentTotal + floor((t - T)/1000) * R` — elapsed milliseconds
truncated to whole seconds; in particular with `R = 1000`, at
`t = T + 2500` the amount is `base + 2000` and at `t = T + 3000` it is
`base + 3000`. -/
theorem getCurrentAmount_truncates_elapsed_seconds :
    (∀ (sg : StreamingSigner) (T t : Int), sg.isActive = true →
        sg.startTime = some T → T ≠ 0 →
        sg.getCurrentAmount t =
          sg.currentTotal + ((t - T).fdiv 1000) * sg.ratePerSecond ∧
        sg.signCurrentClaim t =
          sg.currentTotal + ((t - T).fdiv 1000) * sg.ratePerSecond) ∧
    (∀ (base T : Int), T ≠ 0 →
        (StreamingSigner.mk 1000 base (some T) true).getCurrentAmount (T + 2500) =
          base + 2000 ∧
        (StreamingSigner.mk 1000 base (some T) true).getCurrentAmount (T + 3000) =
          base + 3000) := by
  constructor
  · intro sg T t hA hT hT0
    have h := getCurrentAmount_active t hA hT hT0
    exact ⟨h, h⟩
  · intro base T hT0
    constructor
    · rw [getCurrentAmount_active (T + 2500) rfl rfl hT0]
      have h1 : T + 2500 - T = (2500 : Int) := by ring
      have h2 : (2500 : Int).fdiv 1000 = 2 := by decide
      rw [h1, h2]
      simp
    · rw [getCurrentAmount_active (T + 3000) rfl rfl hT0]
      have h1 : T + 3000 - T = (3000 : Int) := by ring
      have h2 : (3000 : Int).fdiv 1000 = 3 := by decide
      rw [h1, h2]
      simp

/-- C4 witness: the accrual formula applied at a concrete active signer
(rate 1000, base 7, started at 1), evaluated at `t = 2501`. -/
theorem getCurrentAmount_truncates_witness :
    (StreamingSigner.mk 1000 7 (some 1) true).isActive = true ∧
    (StreamingSigner.mk 1000 7 (some 1) true).getCurrentAmount 2501 = 7 + 2000 := by
  refine ⟨rfl, ?_⟩
  have h := (getCurrentAmount_truncates_elapsed_seconds.1
    (StreamingSigner.mk 1000 7 (some 1) true) 1 2501 rfl rfl (by decide)).1
  rw [h]
  decide

/-- C5: evaluation at the failing input.  A fresh signer at rate 1000
started at wall clock 1000 has accrued amount 3000 at `t = 4000`; after
`stop()` every later `getCurrentAmount` returns the stale base 0 — not the
frozen 3000 the claim (and the spec) state — and after a restart at
`t = 5000` accrual resumes from 0, reaching 3000 only after another three
seconds. -/
theorem stop_discards_accrued_amount :
    sampleSigner.getCurrentAmount 4000 = 3000 ∧
    sampleSigner.stop.getCurrentAmount 4000 = 0 ∧
    sampleSigner.stop.getCurrentAmount 1000000 = 0 ∧
    (sampleSigner.stop.start 5000).getCurrentAmount 5000 = 0 ∧
    (sampleSigner.stop.start 5000).getCurrentAmount 8000 = 3000 := by
  decide

/-- C6: `validateClaimRate` rejects (with the rate-limit reason) exactly
when at least `maxClaimsPerMinute` history entries lie in the trailing
60000 ms window, and passes when fewer do; the count is recomputed from
the timestamps at every call (the statement holds at every `now`), so an
attempt rejected at one instant passes at any instant at which the
in-window count has dropped below the maximum. -/
theorem validateClaimRate_window :
    ∀ (s : ChannelStore) (cid : String) (n : Nat) (now : Int),
      ((validateClaimRate s cid n now).valid = false ↔
        n ≤ (s.claimHistory cid).countP
          (fun e => decide (now - e.timestamp ≤ 60000))) ∧
      ((validateClaimRate s cid n now).valid = false →
        (validateClaimRate s cid n now).reason =
          some "Claim rate limit exceeded") ∧
      (∀ later : Int,
        (s.claimHistory cid).countP
            (fun e => decide (later - e.timestamp ≤ 60000)) < n →
          (validateClaimRate s cid n later).valid = true) := by
  intro s cid n now
  refine ⟨?_, ?_, ?_⟩
  · rw [← getRecentClaims_length_eq_countP]
    by_cases hge : n ≤ (s.getRecentClaims cid 60000 now).length
    · rw [validateClaimRate_of_ge hge]
      simpa using hge
    · rw [validateClaimRate_of_lt (Nat.not_le.mp hge)]
      simpa using hge
  · intro hf
    by_cases hge : n ≤ (s.getRecentClaims cid 60000 now).length
    · rw [validateClaimRate_of_ge hge]
    · rw [validateClaimRate_of_lt (Nat.not_le.mp hge)] at hf
      cases hf
  · intro later hlt
    rw [← getRecentClaims_length_eq_countP] at hlt
    rw [validateClaimRate_of_lt hlt]

/-- C6 witness: with one history entry at timestamp 500 and limit 1, the
check at `now = 1000` rejects with the rate-limit reason, and the same
history passes at `now = 100000` (the entry has left the window). -/
theorem validateClaimRate_window_witness :
    (1 ≤ ((testStore 7).claimHistory "chan").countP
        (fun e => decide ((1000 : Int) - e.timestamp ≤ 60000))) ∧
    (validateClaimRate (testStore 7) "chan" 1 1000).valid = false ∧
    (validateClaimRate (testStore 7) "chan" 1 1000).reason =
      some "Claim rate limit exceeded" ∧
    ((testStore 7).claimHistory "chan").countP
        (fun e => decide ((100000 : Int) - e.timestamp ≤ 60000)) < 1 ∧
    (validateClaimRate (testStore 7) "chan" 1 100000).valid = true := by
  refine ⟨by decide, ?_, ?_, by decide, ?_⟩
  · exact (validateClaimRate_window (testStore 7) "chan" 1 1000).1.mpr (by decide)
  · exact (validateClaimRate_window (testStore 7) "chan" 1 1000).2.1
      ((validateClaimRate_window (testStore 7) "chan" 1 1000).1.mpr (by decide))
  · exact (validateClaimRate_window (testStore 7) "chan" 1 0).2.2 100000 (by decide)

/-- C7: over a present channel record, `shouldFinalizeClaim` recommends
finalization if and only if `unclaimed = lastValidAmount -
lastFinalizedAmount` reaches `minAmountToFinalize`, or the time since
`lastFinalizationTime` exceeds `maxTimeSinceLastFinalization` and
`unclaimed > 0`; it always reports the unclaimed amount, and it is a pure
function of the record (any store holding the same record yields the same
recommendation; its type performs no store write).  With threshold 100
and `lastFinalizedAmount = 0`: `lastValidAmount = 99` yields no
recommendation, `lastValidAmount = 100` yields one with the threshold
reason. -/
theorem shouldFinalizeClaim_policy :
    (∀ (s : ChannelStore) (cid : String) (opts : FinalizeOptions) (now : Int)
        (rec : ChannelRecord), s.getChannelData cid = some rec →
      ((shouldFinalizeClaim s cid opts now).shouldFinalize = true ↔
        (opts.minAmountToFinalize ≤
            rec.lastValidAmount.getD 0 - rec.lastFinalizedAmount.getD 0 ∨
          (opts.maxTimeSinceLastFinalization <
              now - rec.lastFinalizationTime.getD 0 ∧
            0 < rec.lastValidAmount.getD 0 - rec.lastFinalizedAmount.getD 0))) ∧
      (shouldFinalizeClaim s cid opts now).unclaimedAmount =
        some (rec.lastValidAmount.getD 0 - rec.lastFinalizedAmount.getD 0) ∧
      (∀ (s' : ChannelStore) (cid' : String), s'.getChannelData cid' = some rec →
        shouldFinalizeClaim s' cid' opts now = shouldFinalizeClaim s cid opts now)) ∧
    ((shouldFinalizeClaim (testStore 99) "chan" ⟨100, 3600000⟩ 0).shouldFinalize = false ∧
      (shouldFinalizeClaim (testStore 100) "chan" ⟨100, 3600000⟩ 0).shouldFinalize = true ∧
      (shouldFinalizeClaim (testStore 100) "chan" ⟨100, 3600000⟩ 0).reason =
        "Unclaimed amount threshold reached") := by
  constructor
  · intro s cid opts now rec h
    have hres : shouldFinalizeClaim s cid opts now =
        (let currentAmount := rec.lastValidAmount.getD 0
         let lastFinalized := rec.lastFinalizedAmount.getD 0
         let unclaimedAmount := currentAmount - lastFinalized
         if unclaimedAmount ≥ opts.minAmountToFinalize then
           { shouldFinalize := true, reason := "Unclaimed amount threshold reached",
             unclaimedAmount := some unclaimedAmount }
         else
           let timeSinceLastFinalization := now - rec.lastFinalizationTime.getD 0
           if timeSinceLastFinalization > opts.maxTimeSinceLastFinalization ∧
               unclaimedAmount > 0 then
             { shouldFinalize := true, reason := "Time threshold exceeded",
               unclaimedAmount := some unclaimedAmount,
               timeSinceLastFinalization := some timeSinceLastFinalization }
           else
             { shouldFinalize := false, reason := "No finalization criteria met",
               unclaimedAmount := some unclaimedAmount }) := by
      unfold shouldFinalizeClaim
      rw [h]
    refine ⟨?_, ?_, ?_⟩
    · rw [hres]
      by_cases h1 : rec.lastValidAmount.getD 0 - rec.lastFinalizedAmount.getD 0 ≥
          opts.minAmountToFinalize
      · simp [h1]
      · by_cases h2 : now - rec.lastFinalizationTime.getD 0 >
              opts.maxTimeSinceLastFinalization ∧
            rec.lastValidAmount.getD 0 - rec.lastFinalizedAmount.getD 0 > 0
        · simp only [if_neg h1, if_pos h2]
          simp only [true_iff]
          exact Or.inr h2
        · simp only [if_neg h1, if_neg h2]
          constructor
          · intro hc; cases hc
          · intro hc
            rcases hc with hc | hc
            · exact absurd hc h1
            · exact absurd hc h2
    · rw [hres]
      by_cases h1 : rec.lastValidAmount.getD 0 - rec.lastFinalizedAmount.getD 0 ≥
          opts.minAmountToFinalize
      · simp [h1]
      · simp only [if_neg h1]
        split <;> rfl
    · intro s' cid' h'
      unfold shouldFinalizeClaim
      rw [h, h']
  · refine ⟨by decide, by decide, by decide⟩

/-- C7 witness: the policy theorem applied at the concrete record of
`testStore 99`, reporting the unclaimed amount 99. -/
theorem shouldFinalizeClaim_policy_witness :
    (testStore 99).getChannelData "chan" =
      some { channelId := some "chan", lastValidAmount := some 99,
             lastFinalizedAmount := some 0 } ∧
    (shouldFinalizeClaim (testStore 99) "chan" ⟨100, 3600000⟩ 0).unclaimedAmount =
      some 99 := by
  refine ⟨rfl, ?_⟩
  have h := (shouldFinalizeClaim_policy.1 (testStore 99) "chan" ⟨100, 3600000⟩ 0
    { channelId := some "chan", lastValidAmount := some 99,
      lastFinalizedAmount := some 0 } rfl).2.1
  exact h.trans (by decide)

/-- C8 counterexample: at a store already holding amount 5000 and a
one-entry history for `"chan"`, `initializeChannel` is not a no-op: the
record is replaced (its `lastValidAmount` drops from 5000 to 0) and the
claim history is cleared, contradicting the claim as stated. -/
theorem initializeChannel_not_noop :
    ((testStore 5000).initializeChannel "chan" {} 777).1.channels "chan" ≠
      (testStore 5000).channels "chan" ∧
    (((testStore 5000).initializeChannel "chan" {} 777).1.channels "chan").bind
      (·.lastValidAmount) = some 0 ∧
    ((testStore 5000).channels "chan").bind (·.lastValidAmount) = some 5000 ∧
    ((testStore 5000).initializeChannel "chan" {} 777).1.claimHistory "chan" = [] ∧
    (testStore 5000).claimHistory "chan" ≠ [] := by
  decide

/-- C8 (amended): `initializeChannel(channelId, metadata)` unconditionally
writes a zeroed record (`lastValidAmount = 0`, `lastFinalizedAmount = 0`,
`createdAt = now`, metadata merged over the defaults) and resets the
channel's claim history to empty — overwriting any existing record and
history rather than no-opping; other channels are untouched.  (Callers in
the repository guard the call with `hasChannel`.) -/
theorem initializeChannel_overwrites :
    ∀ (s : ChannelStore) (cid : String) (md : ChannelRecord) (now : Int),
      md.lastValidAmount = none → md.lastFinalizedAmount = none →
        (((s.initializeChannel cid md now).1).channels cid).bind
          (·.lastValidAmount) = some 0 ∧
        (((s.initializeChannel cid md now).1).channels cid).bind
          (·.lastFinalizedAmount) = some 0 ∧
        ((s.initializeChannel cid md now).1).claimHistory cid = [] ∧
        (∀ c, c ≠ cid →
          ((s.initializeChannel cid md now).1).channels c = s.channels c ∧
          ((s.initializeChannel cid md now).1).claimHistory c =
            s.claimHistory c) := by
  intro s cid md now h1 h2
  unfold ChannelStore.initializeChannel
  refine ⟨?_, ?_, ?_, ?_⟩
  · simp [ChannelRecord.merge, h1]
  · simp [ChannelRecord.merge, h2]
  · simp
  · intro c hc
    constructor <;> simp [hc]

/-- C8 witness: the amended theorem applied at the concrete overwritten
store, also evaluating the frame on another channel. -/
theorem initializeChannel_overwrites_witness :
    ({} : ChannelRecord).lastValidAmount = none ∧
    ((((testStore 5000).initializeChannel "chan" {} 777).1).channels "chan").bind
      (·.lastValidAmount) = some 0 ∧
    (((testStore 5000).initializeChannel "chan" {} 777).1).channels "other" =
      (testStore 5000).channels "other" := by
  refine ⟨rfl, ?_, ?_⟩
  · exact (initializeChannel_overwrites (testStore 5000) "chan" {} 777 rfl rfl).1
  · exact ((initializeChannel_overwrites (testStore 5000) "chan" {} 777 rfl
      rfl).2.2.2 "other" (by decide)).1

/-- C10: a channel with no record reads back `lastValidAmount = 0`; a
first claim on an unknown channel with a passing signature and a strictly
positive amount is accepted (and stored as the new `lastValidAmount`); and
`validateClaim` never produces a channel-not-found style reason — its
reason is always absent or one of the four validation rejections. -/
theorem unknown_channel_defaults_to_zero :
    (∀ (s : ChannelStore) (cid : String), s.channels cid = none →
        s.getLastValidAmount cid = 0) ∧
    (∀ (v : SigOracle) (s : ChannelStore) (cid : String) (a : Int)
        (sig pk : String) (now : Int), s.channels cid = none →
        v cid a sig pk = true → 0 < a →
        (validateClaim v s cid a sig pk none now).valid = true ∧
        (validateClaim v s cid a sig pk none now).previousAmount = some 0 ∧
        (validateAndStoreClaim v s cid a sig pk none now).1.valid = true ∧
        ((validateAndStoreClaim v s cid a sig pk none now).2).getLastValidAmount
          cid = a) ∧
    (∀ (v : SigOracle) (s : ChannelStore) (cid : String) (a : Int)
        (sig pk : String) (info : Option ChannelInfo) (now : Int),
        (validateClaim v s cid a sig pk info now).reason ∈
          [none, some "Invalid signature",
            some "Amount must be greater than previous claim",
            some "Amount exceeds channel balance",
            some "Public key does not match channel"]) := by
  refine ⟨?_, ?_, ?_⟩
  · intro s cid h
    exact getLastValidAmount_of_none h
  · intro v s cid a sig pk now h hb ha
    have h0 : s.getLastValidAmount cid = 0 := getLastValidAmount_of_none h
    have hvalid : (validateClaim v s cid a sig pk none now).valid = true :=
      validateClaim_valid_iff.mpr
        ⟨hb, by rw [h0]; exact ha, fun i hi => nomatch hi⟩
    refine ⟨hvalid, ?_, ?_, ?_⟩
    · rw [validateClaim_success_eq hvalid, h0]
      rfl
    · rw [validateAndStoreClaim_fst_valid]
      exact hvalid
    · rw [validateAndStoreClaim_of_accept hvalid]
      exact getLastValidAmount_updateChannel_self rfl
  · intro v s cid a sig pk info now
    cases hb : v cid a sig pk with
    | false => rw [validateClaim_sig_fail hb]; simp
    | true =>
      by_cases hle : a ≤ s.getLastValidAmount cid
      · rw [validateClaim_stale hb hle]; simp
      · by_cases hvalid : (validateClaim v s cid a sig pk info now).valid = true
        · rw [validateClaim_success_eq hvalid]
          simp [successResult]
        · unfold validateClaim
          rw [hb]
          simp only [if_true, if_neg hle]
          cases info with
          | none => simp [successResult]
          | some i =>
            by_cases hcap : i.Amount < a
            · simp [hcap]
            · by_cases hkey : i.PublicKey ≠ pk
              · simp [if_neg (not_lt.mpr (not_lt.mp hcap)), hkey]
              · simp [hcap, hkey, successResult]

/-- C10 witness: a first claim of amount 1 on a channel absent from the
empty store is accepted and recorded. -/
theorem unknown_channel_defaults_witness :
    ChannelStore.empty.channels "chan" = none ∧
    (validateClaim oracleTrue ChannelStore.empty "chan" 1 "sW" "pW" none 0).valid = true ∧
    ((validateAndStoreClaim oracleTrue ChannelStore.empty "chan" 1 "sW" "pW" none 0).2).getLastValidAmount
      "chan" = 1 := by
  refine ⟨rfl, ?_, ?_⟩
  · exact (unknown_channel_defaults_to_zero.2.1 oracleTrue ChannelStore.empty
      "chan" 1 "sW" "pW" 0 rfl rfl (by decide)).1
  · exact (unknown_channel_defaults_to_zero.2.1 oracleTrue ChannelStore.empty
      "chan" 1 "sW" "pW" 0 rfl rfl (by decide)).2.2.2

end XrplStream
